import Mathlib

/-!
Shallow embedding of the DownloadImagesOnPage download pipeline.

The embedding follows the Python sources under src/DownloadImagesOnPage:
models.py (data records), filter.py (dimension probe and size filter),
file_manager.py (unique filename resolver and file writer), parser.py
(image URL extraction) and orchestrator.py (the two download workflows).
External collaborators (requests, PIL, BeautifulSoup, urllib, playwright,
the filesystem) are modelled as explicit parameters; a Python exception is
an `Except.error` value.  Machine-level concerns do not arise: Python
integers are unbounded, so they embed as `Int`/`Nat` directly.
-/

namespace DownloadImagesOnPage

/-- Image width and height, as in `models.ImageDimensions` (a named tuple of
Python ints). -/
structure ImageDimensions where
  width : Int
  height : Int
deriving DecidableEq, Repr

/-- Summary record `models.DownloadResult`. -/
structure DownloadResult where
  success_count : Nat
  failed_count : Nat
  filtered_count : Nat
  total_count : Nat
deriving DecidableEq, Repr

/-- Model of an `io.BytesIO` buffer: the underlying byte values together with
the current read position. -/
structure ByteStream where
  data : List Nat
  pos : Nat
deriving DecidableEq, Repr

/-- Model of `BytesIO.tell`. -/
def ByteStream.tell (s : ByteStream) : Nat := s.pos

/-- Model of `BytesIO.seek`. -/
def ByteStream.seek (s : ByteStream) (p : Nat) : ByteStream := { s with pos := p }

/-- Model of `BytesIO.getvalue`: the whole buffer, independent of the read
position. -/
def ByteStream.getvalue (s : ByteStream) : List Nat := s.data

/-- Model of the constructor `BytesIO(data)`: a fresh stream at position 0. -/
def ByteStream.ofData (d : List Nat) : ByteStream := ⟨d, 0⟩

/-- Model of the external decoder `PIL.Image.open` applied to a byte stream:
it either succeeds with the decoded size or fails (raises), and in both cases
reports the stream position it leaves behind.  PIL reads a prefix of the
stream to identify the format, so on failure the exit position is in general
not the entry position. -/
structure PILModel where
  openImage : ByteStream → Except Unit ImageDimensions × Nat

/-- Embedding of `filter.get_image_dimensions`: save the position, decode,
restore the position on success; every decoder exception is caught by the two
`except` clauses and mapped to `none`, and on that path no seek is performed,
so the stream keeps whatever position the decoder left. -/
def get_image_dimensions (pil : PILModel) (image_data : ByteStream) :
    Option ImageDimensions × ByteStream :=
  let original_position := image_data.tell
  match pil.openImage image_data with
  | (Except.ok dims, newPos) =>
      (some dims, ByteStream.seek { image_data with pos := newPos } original_position)
  | (Except.error _, newPos) => (none, { image_data with pos := newPos })

/-- Embedding of `filter.check_image_size`.  Python mutates the stream through
the internal probe; the embedding passes the stream state explicitly, so the
result is the decision together with the stream as the call leaves it. -/
def check_image_size (pil : PILModel) (image_data : ByteStream)
    (min_width min_height max_width max_height : Option Int) :
    Bool × ByteStream :=
  if min_width.isNone && min_height.isNone && max_width.isNone && max_height.isNone then
    (true, image_data)
  else
    match get_image_dimensions pil image_data with
    | (none, s) => (false, s)
    | (some dimensions, s) =>
        if min_width.any fun mw => decide (dimensions.width < mw) then (false, s)
        else if min_height.any fun mh => decide (dimensions.height < mh) then (false, s)
        else if max_width.any fun xw => decide (dimensions.width > xw) then (false, s)
        else if max_height.any fun xh => decide (dimensions.height > xh) then (false, s)
        else (true, s)

/-- Reference predicate taken from the words of the specification (section
4.2): all bounds unset passes unconditionally; unknown dimensions with at
least one bound set rejects; otherwise the conjunction of all set bounds,
with equality passing at each boundary. -/
def passes_spec (dims : Option ImageDimensions)
    (min_width min_height max_width max_height : Option Int) : Bool :=
  if min_width.isNone && min_height.isNone && max_width.isNone && max_height.isNone then
    true
  else
    match dims with
    | none => false
    | some d =>
        (min_width.all fun mw => decide (mw ≤ d.width)) &&
        (min_height.all fun mh => decide (mh ≤ d.height)) &&
        (max_width.all fun xw => decide (d.width ≤ xw)) &&
        (max_height.all fun xh => decide (d.height ≤ xh))

/-- Index of the last occurrence of a dot in a character list (models
`str.rfind` as used by pathlib on the file name). -/
def lastDot : List Char → Option Nat
  | [] => none
  | c :: cs =>
      match lastDot cs with
      | some i => some (i + 1)
      | none => if c = '.' then some 0 else none

/-- Models CPython `PurePath.stem` and `PurePath.suffix` on a plain file name
(no path separator): the name splits at its last dot only when that dot is at
an interior position, `0 < i < length - 1`; otherwise the suffix is empty and
the stem is the whole name.  This is the split `file_manager` performs through
`file_path.stem` and `file_path.suffix`. -/
def pathSplit (filename : String) : String × String :=
  let cs := filename.data
  match lastDot cs with
  | some i =>
      if 0 < i ∧ i < cs.length - 1 then
        (String.mk (cs.take i), String.mk (cs.drop i))
      else (filename, "")
  | none => (filename, "")

/-- Split rule as worded by the claim for C4: stem is everything before the
last dot, suffix is the last dot plus remainder, the suffix is empty when no
dot exists, and a sole leading dot yields no suffix. -/
def claimSplit (filename : String) : String × String :=
  let cs := filename.data
  match lastDot cs with
  | some i =>
      if i = 0 then (filename, "")
      else (String.mk (cs.take i), String.mk (cs.drop i))
  | none => (filename, "")

/-- Python f-string `f"{stem}_{counter}{suffix}"` with a decimal counter. -/
def numberedName (stem suffix : String) (counter : Nat) : String :=
  stem ++ "_" ++ Nat.repr counter ++ suffix

/-- Fueled embedding of the `while True` probing loop of
`file_manager.generate_unique_filename`; `none` appears only when the fuel is
exhausted, which `probeName_isSome` below shows never happens at fuel
`files.card + 1`.  The directory state is the finite set of file names that
exist in the target directory. -/
def probeName (files : Finset String) (stem suffix : String) :
    Nat → Nat → Option String
  | 0, _ => none
  | fuel + 1, counter =>
      let new_filename := numberedName stem suffix counter
      if new_filename ∈ files then probeName files stem suffix fuel (counter + 1)
      else some new_filename

/-- Embedding of `file_manager.generate_unique_filename` over the set of file
names existing in the target directory. -/
def generate_unique_filename (files : Finset String) (filename : String) :
    Option String :=
  if filename ∉ files then some filename
  else
    let stem := (pathSplit filename).fst
    let suffix := (pathSplit filename).snd
    probeName files stem suffix (files.card + 1) 1

/-- Model of an OS-level error raised by a filesystem write. -/
inductive OSErr
  | permissionError
  | ioError
  | osError
deriving DecidableEq, Repr

/-- Python exceptions that the embedded pipeline distinguishes. -/
inductive PyExc
  | fetchError
  | downloadError
  | fileWriteError
  | attributeError
  | otherExc
deriving DecidableEq, Repr

/-- Embedding of `file_manager.save_image`: the bytes written are
`image_data.getvalue()`, the whole buffer independent of the read position;
every OS-level failure of the write is mapped to `FileWriteError`. -/
def save_image (write : String → List Nat → Option OSErr)
    (image_data : ByteStream) (file_path : String) : Except PyExc Unit :=
  let image_bytes := image_data.getvalue
  match write file_path image_bytes with
  | none => Except.ok ()
  | some _ => Except.error PyExc.fileWriteError

/-- Whitespace stripping from both ends of a character list, modelling Python
`str.strip()`. -/
def stripChars (cs : List Char) : List Char :=
  ((cs.dropWhile Char.isWhitespace).reverse.dropWhile Char.isWhitespace).reverse

/-- Model of Python `str.strip()`. -/
def pyStrip (s : String) : String := String.mk (stripChars s.data)

/-- Model of Python `str.lower()` on the ASCII subset URLs use. -/
def lowerString (s : String) : String := String.mk (s.data.map Char.toLower)

/-- Structural split of a character list at every occurrence of `c`,
modelling `str.split(sep)`. -/
def splitOnChar (c : Char) : List Char → List (List Char)
  | [] => [[]]
  | d :: cs =>
      let r := splitOnChar c cs
      if d = c then [] :: r
      else
        match r with
        | [] => [[d]]
        | h :: t => (d :: h) :: t

/-- Supported image extensions, `parser.SUPPORTED_EXTENSIONS`. -/
def SUPPORTED_EXTENSIONS : List String :=
  [".jpg", ".jpeg", ".png", ".gif", ".webp", ".svg", ".bmp"]

/-- Excluded URL schemes, `parser.INVALID_SCHEMES`. -/
def INVALID_SCHEMES : List String := ["data", "javascript", "mailto"]

/-- Characters after the last dot, models `path.rsplit(".", 1)[-1]` (the whole
string when no dot occurs). -/
def afterLastDot : List Char → List Char
  | [] => []
  | c :: cs => if cs.contains '.' then afterLastDot cs
               else if c = '.' then cs
               else c :: cs

/-- Characters before the first occurrence of `c`, models `s.split(c)[0]`. -/
def takeBeforeChar (c : Char) : List Char → List Char
  | [] => []
  | d :: cs => if d = c then [] else d :: takeBeforeChar c cs

/-- Extension extraction of `parser.extract_image_urls` line 56: a dot plus
the text after the last dot of the path, truncated before any question mark
or hash. -/
def extensionOf (path : String) : String :=
  "." ++ String.mk (takeBeforeChar '#' (takeBeforeChar '?' (afterLastDot path.data)))

/-- External collaborators of the parser, modelled abstractly: `soupImgs`
returns, for each `img` element of the document in order, its `src` attribute
(`none` when the attribute is absent) as BeautifulSoup yields it; `scheme`
and `pathOf` are the corresponding `urlparse` components; `urljoin` is
`urllib.parse.urljoin`. -/
structure WebEnv where
  soupImgs : String → List (Option String)
  scheme : String → String
  urljoin : String → String → String
  pathOf : String → String

/-- Per-tag step of the extraction loop in `parser.extract_image_urls`.
Python accumulates into a set; the embedding appends first occurrences, so
the accumulator holds exactly the member set, without duplicates (the order
of the Python list is unspecified anyway). -/
def extractStep (env : WebEnv) (base_url : String)
    (urls : List String) (src? : Option String) : List String :=
  match src? with
  | none => urls
  | some src =>
      if src = "" || pyStrip src = "" then urls
      else if env.scheme src ∈ INVALID_SCHEMES then urls
      else
        let absolute_url := env.urljoin base_url src
        let path := lowerString (env.pathOf absolute_url)
        if path.data.contains '.' then
          if extensionOf path ∈ SUPPORTED_EXTENSIONS then
            if absolute_url ∈ urls then urls else urls ++ [absolute_url]
          else urls
        else urls

/-- Embedding of `parser.extract_image_urls`. -/
def extract_image_urls (env : WebEnv) (html : String) (base_url : String) :
    List String :=
  if html = "" then []
  else (env.soupImgs html).foldl (extractStep env base_url) []

/-- Extraction as worded by the specification for C8: keep the source URL of
every image-bearing element with a non-empty `src`, resolved to absolute form
and deduplicated by exact string equality, dropping only the non-fetchable
schemes data, javascript and mailto. -/
def extract_image_urls_spec (env : WebEnv) (html : String) (base_url : String) :
    List String :=
  (env.soupImgs html).foldl
    (fun urls src? =>
      match src? with
      | none => urls
      | some src =>
          if src = "" then urls
          else if env.scheme src ∈ INVALID_SCHEMES then urls
          else
            let absolute_url := env.urljoin base_url src
            if absolute_url ∈ urls then urls else urls ++ [absolute_url])
    []

/-- Python values that occur in configuration attributes. -/
inductive ConfigVal
  | str (s : String)
  | optInt (n : Option Int)
  | bool (b : Bool)
deriving DecidableEq, Repr

/-- Python truthiness of a configuration value (`if config.use_playwright:`). -/
def ConfigVal.truthy : ConfigVal → Bool
  | .str s => decide (s ≠ "")
  | .optInt none => false
  | .optInt (some n) => decide (n ≠ 0)
  | .bool b => b

/-- Python test `value is not None`. -/
def ConfigVal.isNotNone : ConfigVal → Bool
  | .optInt none => false
  | _ => true

/-- String content of an attribute; the program only applies this to
attributes it stores strings in. -/
def ConfigVal.asStr : ConfigVal → String
  | .str s => s
  | _ => ""

/-- Optional integer content of an attribute; the program only applies this
to the four size-bound attributes. -/
def ConfigVal.asBound : ConfigVal → Option Int
  | .optInt o => o
  | _ => none

/-- Model of a Python object used as configuration: a finite attribute table.
Reading a missing attribute raises `AttributeError`. -/
structure PyObj where
  attr : String → Option ConfigVal

/-- Python attribute read `config.name`. -/
def PyObj.get (o : PyObj) (name : String) : Except PyExc ConfigVal :=
  match o.attr name with
  | some v => Except.ok v
  | none => Except.error PyExc.attributeError

/-- Embedding of the frozen dataclass `models.CLIConfig`: exactly the five
declared fields `url`, `output_dir`, `min_width`, `min_height`, `verbose`. -/
structure CLIConfig where
  url : String
  output_dir : String
  min_width : Option Int
  min_height : Option Int
  verbose : Bool

/-- Attribute table of a `CLIConfig` instance.  A frozen dataclass instance
carries exactly its declared fields; `parse_arguments` in cli.py returns such
an instance. -/
def CLIConfig.obj (c : CLIConfig) : PyObj :=
  ⟨fun a =>
    if a = "url" then some (.str c.url)
    else if a = "output_dir" then some (.str c.output_dir)
    else if a = "min_width" then some (.optInt c.min_width)
    else if a = "min_height" then some (.optInt c.min_height)
    else if a = "verbose" then some (.bool c.verbose)
    else none⟩

/-- Configuration carrying every attribute the orchestrator reads (the shape
the tests and the playwright-aware command line construct). -/
structure FullConfig where
  url : String
  output_dir : String
  min_width : Option Int
  min_height : Option Int
  max_width : Option Int
  max_height : Option Int
  verbose : Bool
  use_playwright : Bool

/-- Attribute table of a full configuration object. -/
def FullConfig.obj (c : FullConfig) : PyObj :=
  ⟨fun a =>
    if a = "url" then some (.str c.url)
    else if a = "output_dir" then some (.str c.output_dir)
    else if a = "min_width" then some (.optInt c.min_width)
    else if a = "min_height" then some (.optInt c.min_height)
    else if a = "max_width" then some (.optInt c.max_width)
    else if a = "max_height" then some (.optInt c.max_height)
    else if a = "verbose" then some (.bool c.verbose)
    else if a = "use_playwright" then some (.bool c.use_playwright)
    else none⟩

/-- Modelled from the spec: the `RenderedImage` record (the Rendered-mode
`CandidateImage` of specification section 3) is referenced by
`fetcher.capture_rendered_images`, `orchestrator.run_download_with_playwright`
and the tests, but its class is absent from src/DownloadImagesOnPage/models.py.
Fields follow the callers: captured bytes, declared source URL, resolved
dimensions and suggested file name. -/
structure RenderedImage where
  image_data : List Nat
  original_url : String
  dimensions : ImageDimensions
  filename : String
deriving DecidableEq, Repr

/-- External collaborators of the orchestrator: the page fetch
(`fetcher.fetch_html` over requests), the rendered capture
(`fetcher.capture_rendered_images_sync` over playwright), the per-image
download (`downloader.download_image` over requests), the PIL decoder, the
urllib components for the parser and for file name derivation, and the
filesystem write. -/
structure Env where
  web : WebEnv
  fetch_html : String → Except PyExc String
  capture : String → Except PyExc (List RenderedImage)
  download_image : String → Except PyExc ByteStream
  pil : PILModel
  write : String → List Nat → Option OSErr

/-- Attribute reads of the short-circuit condition on orchestrator.py lines
74-75 and 187-188: `config.min_width is not None or config.min_height is not
None or config.max_width is not None or config.max_height is not None`,
evaluated left to right, stopping at the first true test. -/
def readAnyBound (cfg : PyObj) : Except PyExc Bool := do
  let mw ← cfg.get "min_width"
  if mw.isNotNone then return true
  let mh ← cfg.get "min_height"
  if mh.isNotNone then return true
  let xw ← cfg.get "max_width"
  if xw.isNotNone then return true
  let xh ← cfg.get "max_height"
  return xh.isNotNone

/-- Attribute reads of the four bound arguments passed to
`check_image_size`. -/
def readBounds (cfg : PyObj) :
    Except PyExc (Option Int × Option Int × Option Int × Option Int) := do
  let mw ← cfg.get "min_width"
  let mh ← cfg.get "min_height"
  let xw ← cfg.get "max_width"
  let xh ← cfg.get "max_height"
  return (mw.asBound, mh.asBound, xw.asBound, xh.asBound)

/-- Last path component, modelling `PurePath(p).name` on ordinary URL paths:
the last nonempty slash-separated component (pathlib ignores a trailing
slash), empty when there is none. -/
def pathName (p : String) : String :=
  String.mk (((splitOnChar '/' p.data).reverse.find? (fun c => c ≠ [])).getD [])

/-- Per-candidate outcome deltas: increments applied to
(success_count, failed_count, filtered_count). -/
abbrev Deltas := Nat × Nat × Nat

/-- Tail of the static loop body from the filename derivation on (orchestrator
lines 96-119).  The `success_count` increment on line 108 happens before the
`config.verbose` read on line 110, so a failing read there is caught and also
counted as failed; with well-formed configurations that branch is dead.  The
fueled resolver never returns `none` (theorem `probeName_isSome` area below),
so the `getD` default is dead code. -/
def staticSave (env : Env) (cfg : PyObj) (files : Finset String)
    (index : Nat) (url : String) (image_data : ByteStream) :
    Deltas × Finset String :=
  let filename0 := pathName (env.web.pathOf url)
  let filename := if filename0 = "" then "image_" ++ Nat.repr index ++ ".jpg"
                  else filename0
  match cfg.get "output_dir" with
  | .error _ => ((0, 1, 0), files)
  | .ok _ =>
      let unique_path := (generate_unique_filename files filename).getD filename
      match save_image env.write image_data unique_path with
      | .error _ => ((0, 1, 0), files)
      | .ok _ =>
          match cfg.get "verbose" with
          | .error _ => ((1, 1, 0), insert unique_path files)
          | .ok _ => ((1, 0, 0), insert unique_path files)

/-- One candidate of the static loop (orchestrator lines 65-132), with the
three `except` clauses folded in: every exception raised inside the `try`
block yields a Failed outcome.  The filtered branch re-probes the dimensions
for logging and, when they are known, the log f-string reads the four bound
attributes again (lines 80-89). -/
def processStatic (env : Env) (cfg : PyObj) (files : Finset String)
    (index : Nat) (url : String) : Deltas × Finset String :=
  match env.download_image url with
  | .error _ => ((0, 1, 0), files)
  | .ok image_data =>
      match readAnyBound cfg with
      | .error _ => ((0, 1, 0), files)
      | .ok anyBound =>
          if anyBound then
            match readBounds cfg with
            | .error _ => ((0, 1, 0), files)
            | .ok (mw, mh, xw, xh) =>
                match check_image_size env.pil image_data mw mh xw xh with
                | (true, s) => staticSave env cfg files index url s
                | (false, s) =>
                    if ((get_image_dimensions env.pil s).fst).isSome then
                      match readBounds cfg with
                      | .error _ => ((0, 1, 0), files)
                      | .ok _ => ((0, 0, 1), files)
                    else ((0, 0, 1), files)
          else staticSave env cfg files index url image_data

/-- Tail of the rendered loop body (orchestrator lines 210-230): resolver,
fresh `BytesIO` over the captured bytes, save; the success log reads no
configuration attribute. -/
def renderedSave (env : Env) (cfg : PyObj) (files : Finset String)
    (img : RenderedImage) : Deltas × Finset String :=
  match cfg.get "output_dir" with
  | .error _ => ((0, 1, 0), files)
  | .ok _ =>
      let unique_path := (generate_unique_filename files img.filename).getD img.filename
      match save_image env.write (ByteStream.ofData img.image_data) unique_path with
      | .error _ => ((0, 1, 0), files)
      | .ok _ => ((1, 0, 0), insert unique_path files)

/-- One candidate of the rendered loop (orchestrator lines 182-230), `except`
clauses folded in.  The filter decision converts the captured bytes to a
fresh `BytesIO` and re-decodes them through `check_image_size`; the
pre-supplied `img.dimensions` only appear in log output.  The filtered-branch
log f-string reads the four bound attributes again (lines 201-206). -/
def processRendered (env : Env) (cfg : PyObj) (files : Finset String)
    (img : RenderedImage) : Deltas × Finset String :=
  match readAnyBound cfg with
  | .error _ => ((0, 1, 0), files)
  | .ok anyBound =>
      if anyBound then
        let image_bytes := ByteStream.ofData img.image_data
        match readBounds cfg with
        | .error _ => ((0, 1, 0), files)
        | .ok (mw, mh, xw, xh) =>
            match check_image_size env.pil image_bytes mw mh xw xh with
            | (true, _) => renderedSave env cfg files img
            | (false, _) =>
                match readBounds cfg with
                | .error _ => ((0, 1, 0), files)
                | .ok _ => ((0, 0, 1), files)
      else renderedSave env cfg files img

/-- Running tally of the three counters. -/
structure Tally where
  success_count : Nat
  failed_count : Nat
  filtered_count : Nat
deriving DecidableEq, Repr

/-- Tally update by one candidate's deltas. -/
def Tally.add (t : Tally) (d : Deltas) : Tally :=
  ⟨t.success_count + d.1, t.failed_count + d.2.1, t.filtered_count + d.2.2⟩

/-- Static per-candidate loop, candidates processed in order with 1-based
index. -/
def staticLoop (env : Env) (cfg : PyObj) :
    List String → Nat → Tally → Finset String → Tally × Finset String
  | [], _, t, files => (t, files)
  | url :: rest, index, t, files =>
      let r := processStatic env cfg files index url
      staticLoop env cfg rest (index + 1) (t.add r.fst) r.snd

/-- Rendered per-candidate loop. -/
def renderedLoop (env : Env) (cfg : PyObj) :
    List RenderedImage → Tally → Finset String → Tally × Finset String
  | [], t, files => (t, files)
  | img :: rest, t, files =>
      let r := processRendered env cfg files img
      renderedLoop env cfg rest (t.add r.fst) r.snd

/-- Embedding of `orchestrator.run_download_with_playwright`.  The result is
the returned summary (or the propagated exception) together with the final
directory state. -/
def run_download_with_playwright (env : Env) (config : PyObj)
    (files : Finset String) : Except PyExc DownloadResult × Finset String :=
  match config.get "url" with
  | .error e => (.error e, files)
  | .ok u =>
      match env.capture u.asStr with
      | .error e => (.error e, files)
      | .ok rendered_images =>
          let total_count := rendered_images.length
          if total_count = 0 then (.ok ⟨0, 0, 0, 0⟩, files)
          else
            let r := renderedLoop env config rendered_images ⟨0, 0, 0⟩ files
            (.ok ⟨r.fst.success_count, r.fst.failed_count,
                  r.fst.filtered_count, total_count⟩, r.snd)

/-- Embedding of `orchestrator.run_download`.  The first statement reads
`config.use_playwright` outside any `try`; the line 42 log f-string then
reads `config.url`, still outside any `try`; the page fetch is the only other
failure that can propagate. -/
def run_download (env : Env) (config : PyObj) (files : Finset String) :
    Except PyExc DownloadResult × Finset String :=
  match config.get "use_playwright" with
  | .error e => (.error e, files)
  | .ok upw =>
      if upw.truthy then run_download_with_playwright env config files
      else
        match config.get "url" with
        | .error e => (.error e, files)
        | .ok u =>
            match env.fetch_html u.asStr with
            | .error e => (.error e, files)
            | .ok html =>
                let image_urls := extract_image_urls env.web html u.asStr
                let total_count := image_urls.length
                if total_count = 0 then (.ok ⟨0, 0, 0, 0⟩, files)
                else
                  let r := staticLoop env config image_urls 1 ⟨0, 0, 0⟩ files
                  (.ok ⟨r.fst.success_count, r.fst.failed_count,
                        r.fst.filtered_count, total_count⟩, r.snd)

/-- Model of Python `int(s)` on optionally signed decimal strings: leading
and trailing whitespace is ignored, a `ValueError` (here `none`) is raised on
anything that is not a sign followed by digits.  This is the subset of `int`
the width/height attribute strings exercise. -/
def pyToInt (s : String) : Option Int :=
  let t := pyStrip s
  let digits := fun (cs : List Char) =>
    if cs = [] then (none : Option Nat)
    else if cs.all (fun c => c.isDigit) then
      some (cs.foldl (fun a c => 10 * a + (c.toNat - 48)) 0)
    else none
  match t.data with
  | '-' :: rest => (digits rest).map (fun n => -(n : Int))
  | '+' :: rest => (digits rest).map (fun n => (n : Int))
  | cs => (digits cs).map (fun n => (n : Int))

/-- Dimension resolution of `fetcher.capture_rendered_images` lines 176-194:
when both the `width` and `height` attributes are present (non-`none`) and
truthy (non-empty) and both parse as ints, the declared attribute values are
used; otherwise the captured raster is decoded.  A decoder failure raises and
is caught by the per-element handler, which skips the element (`Except.error`
here). -/
def resolveRenderedDims (pil : PILModel) (screenshot_data : List Nat)
    (width_attr height_attr : Option String) : Except Unit ImageDimensions :=
  let decode := (pil.openImage (ByteStream.ofData screenshot_data)).fst
  match width_attr, height_attr with
  | some w, some h =>
      if w ≠ "" ∧ h ≠ "" then
        match pyToInt w, pyToInt h with
        | some iw, some ih => Except.ok ⟨iw, ih⟩
        | _, _ => decode
      else decode
  | _, _ => decode

/-- Decoder used by concrete runs: every buffer decodes to the pair stored in
its first two bytes, leaving the position at 0 (as PIL does after its format
probe); the empty buffer fails to decode. -/
def tablePIL : PILModel :=
  ⟨fun s =>
    match s.data with
    | w :: h :: _ => (Except.ok ⟨(w : Int), (h : Int)⟩, 0)
    | _ => (Except.error (), 0)⟩

/-- Concrete web collaborators for witness runs: the page lists two images,
URLs are already absolute (urljoin of an absolute URL is that URL), the
scheme is http, and the path is the text after the host `http://x`. -/
def wWeb : WebEnv :=
  ⟨fun _ => [some "http://x/a.jpg", some "http://x/b.png"],
   fun _ => "http",
   fun _ r => r,
   fun u => String.mk (u.data.drop 8)⟩

/-- Concrete environment for witness runs: the fetch succeeds, `a.jpg`
downloads to a 100 by 50 image, `b.png` fails to download, every write
succeeds. -/
def wEnv : Env :=
  ⟨wWeb,
   fun _ => Except.ok "<html>",
   fun _ => Except.ok [],
   fun u => if u = "http://x/a.jpg" then Except.ok (ByteStream.ofData [100, 50, 7])
            else Except.error PyExc.downloadError,
   tablePIL,
   fun _ _ => none⟩

/-- Concrete environment whose page fetch and capture both fail. -/
def failEnv : Env :=
  ⟨wWeb,
   fun _ => Except.error PyExc.fetchError,
   fun _ => Except.error PyExc.fetchError,
   fun _ => Except.error PyExc.downloadError,
   tablePIL,
   fun _ _ => none⟩

/-- Witness configuration: static mode with a minimum width of 10. -/
def wCfg : FullConfig :=
  ⟨"http://x", "/out", some 10, none, none, none, false, false⟩

/-- Environment for the C7 counterexample: the capture returns one rendered
image whose raster bytes decode to 10 by 10 while its pre-supplied dimensions
(as resolved from the HTML width/height attributes) say 500 by 500. -/
def cexRenderedEnv : Env :=
  ⟨wWeb,
   fun _ => Except.ok "<html>",
   fun _ => Except.ok [⟨[10, 10, 7], "http://x/p.jpg", ⟨500, 500⟩, "p.png"⟩],
   fun _ => Except.error PyExc.downloadError,
   tablePIL,
   fun _ _ => none⟩

/-- Rendered-mode configuration with a minimum width of 100. -/
def cexRenderedCfg : FullConfig :=
  ⟨"http://x", "/out", some 100, none, none, none, false, true⟩

/-- Web collaborators for the C8 counterexample: one image element whose
`src` is the absolute URL `http://x/a.tiff`; the urllib components behave as
the Python ones do on this input (the scheme is http, joining an absolute URL
returns it, its path is `/a.tiff`). -/
def cexTiffWeb : WebEnv :=
  ⟨fun _ => [some "http://x/a.tiff"],
   fun _ => "http",
   fun _ r => r,
   fun u => String.mk (u.data.drop 8)⟩

deriving instance DecidableEq for Except

/-- Decoder that fails on every input, leaving the stream at position 0 after
its format probe, as PIL does when it cannot identify a short buffer: the
open call reads a sixteen byte prefix and seeks to 0 before each format
attempt, so a caller that entered at a nonzero position does not get that
position back when the open raises. -/
def pilFail : PILModel := ⟨fun _ => (Except.error (), 0)⟩

/-- Numeric value of a decimal digit string, used to invert `Nat.repr`. -/
def valOfDigits (cs : List Char) : Nat :=
  cs.foldl (fun a c => 10 * a + (c.toNat - 48)) 0

/-! Helper lemmas.  The first block inverts `Nat.repr`, which gives
injectivity of the numbered file names for a fixed stem and suffix and with
it the pigeonhole bound on the probing loop. -/

theorem valOfDigits_append (cs : List Char) (c : Char) :
    valOfDigits (cs ++ [c]) = 10 * valOfDigits cs + (c.toNat - 48) := by
  simp [valOfDigits, List.foldl_append]

theorem digitChar_val : ∀ d : Nat, d < 10 → (Nat.digitChar d).toNat - 48 = d := by
  decide

theorem toDigitsCore_acc (fuel n : Nat) (ds : List Char) :
    Nat.toDigitsCore 10 fuel n ds = Nat.toDigitsCore 10 fuel n [] ++ ds := by
  induction fuel generalizing n ds with
  | zero => simp [Nat.toDigitsCore]
  | succ f ih =>
      simp only [Nat.toDigitsCore]
      by_cases h : n / 10 = 0
      · simp [h]
      · simp only [h, if_false]
        rw [ih (n / 10) [Nat.digitChar (n % 10)],
            ih (n / 10) (Nat.digitChar (n % 10) :: ds), List.append_assoc]
        rfl

theorem toDigitsCore_fuel (f₁ f₂ n : Nat) (h₁ : n < f₁) (h₂ : n < f₂)
    (ds : List Char) :
    Nat.toDigitsCore 10 f₁ n ds = Nat.toDigitsCore 10 f₂ n ds := by
  induction f₁ generalizing f₂ n ds with
  | zero => omega
  | succ f ih =>
      cases f₂ with
      | zero => omega
      | succ g =>
          simp only [Nat.toDigitsCore]
          by_cases h : n / 10 = 0
          · simp [h]
          · simp only [h, if_false]
            have hn : n / 10 < n := Nat.div_lt_self (by omega) (by omega)
            exact ih g (n / 10) (by omega) (by omega) _

theorem valOfDigits_toDigits (n : Nat) : valOfDigits (Nat.toDigits 10 n) = n := by
  induction n using Nat.strong_induction_on with
  | _ n ih =>
      by_cases h : n / 10 = 0
      · have hlt : n < 10 := by omega
        simp [Nat.toDigits, Nat.toDigitsCore, h, valOfDigits,
              digitChar_val (n % 10) (Nat.mod_lt n (by omega) |>.trans_le (by omega))]
        · omega
      · have hdiv : n / 10 < n := Nat.div_lt_self (by omega) (by omega)
        have step : Nat.toDigits 10 n
            = Nat.toDigits 10 (n / 10) ++ [Nat.digitChar (n % 10)] := by
          show Nat.toDigitsCore 10 (n + 1) n [] = _
          simp only [Nat.toDigitsCore, h, if_false]
          rw [toDigitsCore_acc]
          rw [toDigitsCore_fuel n (n / 10 + 1) (n / 10) hdiv (Nat.lt_succ_self _)]
          rfl
        rw [step, valOfDigits_append, ih (n / 10) hdiv,
            digitChar_val (n % 10) (Nat.mod_lt n (by omega))]
        omega

theorem repr_injective : Function.Injective Nat.repr := by
  intro a b h
  have hd : Nat.toDigits 10 a = Nat.toDigits 10 b := by
    have := congrArg String.data h
    simpa [Nat.repr, List.asString] using this
  have := congrArg valOfDigits hd
  simpa [valOfDigits_toDigits] using this

theorem numberedName_inj (stem suffix : String) :
    Function.Injective (numberedName stem suffix) := by
  intro m n h
  have hd := congrArg String.data h
  simp only [numberedName, String.data_append] at hd
  have h1 := List.append_cancel_right hd
  have h2 := List.append_cancel_left h1
  exact repr_injective (String.ext h2)

theorem exists_absent (files : Finset String) (stem suffix : String)
    (counter : Nat) :
    ∃ k, k < files.card + 1 ∧
      numberedName stem suffix (counter + k) ∉ files := by
  by_contra hcon
  push_neg at hcon
  have hsub : (Finset.range (files.card + 1)).image
      (fun k => numberedName stem suffix (counter + k)) ⊆ files := by
    intro x hx
    rcases Finset.mem_image.mp hx with ⟨k, hk, rfl⟩
    exact hcon k (Finset.mem_range.mp hk)
  have hcard : ((Finset.range (files.card + 1)).image
      (fun k => numberedName stem suffix (counter + k))).card
      = files.card + 1 := by
    rw [Finset.card_image_of_injective _
          (fun a b hab => by
            have := numberedName_inj stem suffix hab
            omega),
        Finset.card_range]
  have := Finset.card_le_card hsub
  omega

theorem probeName_isSome_of_absent (files : Finset String)
    (stem suffix : String) :
    ∀ fuel counter,
      (∃ k, k < fuel ∧ numberedName stem suffix (counter + k) ∉ files) →
      (probeName files stem suffix fuel counter).isSome := by
  intro fuel
  induction fuel with
  | zero => intro counter h; rcases h with ⟨k, hk, _⟩; omega
  | succ f ih =>
      intro counter ⟨k, hk, habs⟩
      simp only [probeName]
      by_cases hmem : numberedName stem suffix counter ∈ files
      · simp only [hmem, if_true]
        apply ih
        rcases Nat.eq_zero_or_pos k with rfl | hkpos
        · exact absurd habs (by simpa using hmem)
        · exact ⟨k - 1, by omega, by
            have : counter + 1 + (k - 1) = counter + k := by omega
            rwa [this]⟩
      · simp [hmem]

theorem probeName_isSome (files : Finset String) (stem suffix : String)
    (counter : Nat) :
    (probeName files stem suffix (files.card + 1) counter).isSome := by
  exact probeName_isSome_of_absent files stem suffix _ counter
    (exists_absent files stem suffix counter)

theorem generate_unique_filename_isSome (files : Finset String)
    (filename : String) :
    (generate_unique_filename files filename).isSome := by
  unfold generate_unique_filename
  by_cases h : filename ∈ files
  · simp only [h, not_true, if_neg, ite_false]
    · exact probeName_isSome files _ _ 1
  · simp [h]

theorem probeName_spec (files : Finset String) (stem suffix : String) :
    ∀ fuel counter r, probeName files stem suffix fuel counter = some r →
      ∃ k, k < fuel ∧ r = numberedName stem suffix (counter + k) ∧
        numberedName stem suffix (counter + k) ∉ files ∧
        ∀ j, j < k → numberedName stem suffix (counter + j) ∈ files := by
  intro fuel
  induction fuel with
  | zero => intro counter r h; simp [probeName] at h
  | succ f ih =>
      intro counter r h
      simp only [probeName] at h
      by_cases hmem : numberedName stem suffix counter ∈ files
      · rw [if_pos hmem] at h
        rcases ih (counter + 1) r h with ⟨k, hk, hr, habs, hall⟩
        refine ⟨k + 1, by omega, ?_, ?_, ?_⟩
        · rwa [show counter + (k + 1) = counter + 1 + k by omega]
        · rwa [show counter + (k + 1) = counter + 1 + k by omega]
        · intro j hj
          rcases Nat.eq_zero_or_pos j with rfl | hjpos
          · simpa using hmem
          · have := hall (j - 1) (by omega)
            rwa [show counter + 1 + (j - 1) = counter + j by omega] at this
      · rw [if_neg hmem] at h
        exact ⟨0, by omega, by simpa using h.symm, by simpa using hmem,
               fun j hj => by omega⟩

theorem obj_get_url (c : FullConfig) :
    (c.obj).get "url" = Except.ok (ConfigVal.str c.url) := rfl

theorem obj_get_output_dir (c : FullConfig) :
    (c.obj).get "output_dir" = Except.ok (ConfigVal.str c.output_dir) := rfl

theorem obj_get_verbose (c : FullConfig) :
    (c.obj).get "verbose" = Except.ok (ConfigVal.bool c.verbose) := rfl

theorem obj_get_upw (c : FullConfig) :
    (c.obj).get "use_playwright" = Except.ok (ConfigVal.bool c.use_playwright) := rfl

theorem readAnyBound_obj (c : FullConfig) :
    readAnyBound c.obj = Except.ok
      (c.min_width.isSome || c.min_height.isSome ||
       c.max_width.isSome || c.max_height.isSome) := by
  obtain ⟨u, o, mw, mh, xw, xh, v, p⟩ := c
  cases mw <;> cases mh <;> cases xw <;> cases xh <;> rfl

theorem readBounds_obj (c : FullConfig) :
    readBounds c.obj = Except.ok
      (c.min_width, c.min_height, c.max_width, c.max_height) := rfl

theorem staticSave_delta (env : Env) (c : FullConfig) (files : Finset String)
    (index : Nat) (url : String) (s : ByteStream) :
    ((staticSave env c.obj files index url s).fst.1,
     (staticSave env c.obj files index url s).fst.2.1,
     (staticSave env c.obj files index url s).fst.2.2) = (1, 0, 0) ∨
    ((staticSave env c.obj files index url s).fst.1,
     (staticSave env c.obj files index url s).fst.2.1,
     (staticSave env c.obj files index url s).fst.2.2) = (0, 1, 0) := by
  simp only [staticSave, obj_get_output_dir, obj_get_verbose]
  cases save_image env.write s
      ((generate_unique_filename files
        (if pathName (env.web.pathOf url) = "" then
          "image_" ++ Nat.repr index ++ ".jpg"
        else pathName (env.web.pathOf url))).getD
        (if pathName (env.web.pathOf url) = "" then
          "image_" ++ Nat.repr index ++ ".jpg"
        else pathName (env.web.pathOf url))) with
  | error e => right; rfl
  | ok u => left; rfl

theorem processStatic_delta (env : Env) (c : FullConfig) (files : Finset String)
    (index : Nat) (url : String) :
    (processStatic env c.obj files index url).fst.1 +
    (processStatic env c.obj files index url).fst.2.1 +
    (processStatic env c.obj files index url).fst.2.2 = 1 := by
  simp only [processStatic, readAnyBound_obj, readBounds_obj]
  cases env.download_image url with
  | error e => rfl
  | ok image_data =>
      by_cases hb : (c.min_width.isSome || c.min_height.isSome ||
          c.max_width.isSome || c.max_height.isSome) = true
      · simp only [hb, if_true]
        rcases hcs : check_image_size env.pil image_data c.min_width c.min_height
            c.max_width c.max_height with ⟨b, s⟩
        cases b
        · simp only
          cases ((get_image_dimensions env.pil s).fst).isSome <;> rfl
        · simp only
          rcases staticSave_delta env c files index url s with h | h <;>
            · have h1 := congrArg Prod.fst h
              have h2 := congrArg (fun p => p.snd.fst) h
              have h3 := congrArg (fun p => p.snd.snd) h
              simp at h1 h2 h3
              omega
      · simp only [Bool.not_eq_true] at hb
        simp only [hb, Bool.false_eq_true, if_false]
        rcases staticSave_delta env c files index url image_data with h | h <;>
          · have h1 := congrArg Prod.fst h
            have h2 := congrArg (fun p => p.snd.fst) h
            have h3 := congrArg (fun p => p.snd.snd) h
            simp at h1 h2 h3
            omega

theorem renderedSave_delta (env : Env) (c : FullConfig) (files : Finset String)
    (img : RenderedImage) :
    (renderedSave env c.obj files img).fst.1 +
    (renderedSave env c.obj files img).fst.2.1 +
    (renderedSave env c.obj files img).fst.2.2 = 1 := by
  simp only [renderedSave, obj_get_output_dir]
  cases save_image env.write (ByteStream.ofData img.image_data)
      ((generate_unique_filename files img.filename).getD img.filename) with
  | error e => rfl
  | ok u => rfl

theorem processRendered_delta (env : Env) (c : FullConfig)
    (files : Finset String) (img : RenderedImage) :
    (processRendered env c.obj files img).fst.1 +
    (processRendered env c.obj files img).fst.2.1 +
    (processRendered env c.obj files img).fst.2.2 = 1 := by
  simp only [processRendered, readAnyBound_obj, readBounds_obj]
  by_cases hb : (c.min_width.isSome || c.min_height.isSome ||
      c.max_width.isSome || c.max_height.isSome) = true
  · simp only [hb, if_true]
    rcases hcs : check_image_size env.pil (ByteStream.ofData img.image_data)
        c.min_width c.min_height c.max_width c.max_height with ⟨b, s⟩
    cases b
    · rfl
    · exact renderedSave_delta env c files img
  · simp only [Bool.not_eq_true] at hb
    simp only [hb, Bool.false_eq_true, if_false]
    exact renderedSave_delta env c files img

theorem staticLoop_sum (env : Env) (c : FullConfig) :
    ∀ (urls : List String) (index : Nat) (t : Tally) (files : Finset String),
      (staticLoop env c.obj urls index t files).fst.success_count +
      (staticLoop env c.obj urls index t files).fst.failed_count +
      (staticLoop env c.obj urls index t files).fst.filtered_count =
      t.success_count + t.failed_count + t.filtered_count + urls.length := by
  intro urls
  induction urls with
  | nil => intro index t files; simp [staticLoop]
  | cons url rest ih =>
      intro index t files
      simp only [staticLoop, List.length_cons]
      rw [ih]
      have := processStatic_delta env c files index url
      simp only [Tally.add]
      omega

theorem renderedLoop_sum (env : Env) (c : FullConfig) :
    ∀ (imgs : List RenderedImage) (t : Tally) (files : Finset String),
      (renderedLoop env c.obj imgs t files).fst.success_count +
      (renderedLoop env c.obj imgs t files).fst.failed_count +
      (renderedLoop env c.obj imgs t files).fst.filtered_count =
      t.success_count + t.failed_count + t.filtered_count + imgs.length := by
  intro imgs
  induction imgs with
  | nil => intro t files; simp [renderedLoop]
  | cons img rest ih =>
      intro t files
      simp only [renderedLoop, List.length_cons]
      rw [ih]
      have := processRendered_delta env c files img
      simp only [Tally.add]
      omega

theorem any_min_eq (o : Option Int) (w : Int) :
    (o.any fun m => decide (w < m)) = !(o.all fun m => decide (m ≤ w)) := by
  cases o with
  | none => rfl
  | some b =>
      simp only [Option.any, Option.all, ← decide_not, decide_eq_decide]
      omega

theorem any_max_eq (o : Option Int) (w : Int) :
    (o.any fun m => decide (w > m)) = !(o.all fun m => decide (w ≤ m)) := by
  cases o with
  | none => rfl
  | some b =>
      simp only [Option.any, Option.all, ← decide_not, decide_eq_decide]
      omega

theorem check_size_spec_aux (pil : PILModel) (s : ByteStream)
    (mw mh xw xh : Option Int) :
    (check_image_size pil s mw mh xw xh).fst =
      passes_spec (get_image_dimensions pil s).fst mw mh xw xh := by
  unfold check_image_size passes_spec
  by_cases hall : (mw.isNone && mh.isNone && xw.isNone && xh.isNone) = true
  · simp [hall]
  · simp only [hall, Bool.false_eq_true, if_false]
    rcases hgd : get_image_dimensions pil s with ⟨d?, s'⟩
    cases d? with
    | none => rfl
    | some d =>
        simp only [any_min_eq, any_max_eq]
        cases h1 : mw.all fun m => decide (m ≤ d.width) <;>
        cases h2 : mh.all fun m => decide (m ≤ d.height) <;>
        cases h3 : xw.all fun m => decide (d.width ≤ m) <;>
        cases h4 : xh.all fun m => decide (d.height ≤ m) <;>
          simp [h1, h2, h3, h4]

/-- C5: check_image_size equals the reference predicate of the specification:
with all four bounds unset it returns true for every decoder (hence without
consulting the prober); with unknown dimensions and at least one bound set it
returns false; otherwise it is the conjunction of all set bounds, equality
passing at each boundary. -/
theorem check_image_size_matches_spec (pil : PILModel) (s : ByteStream)
    (mw mh xw xh : Option Int) :
    (check_image_size pil s mw mh xw xh).fst =
      passes_spec (get_image_dimensions pil s).fst mw mh xw xh :=
  check_size_spec_aux pil s mw mh xw xh

/-- C2: the declared dataclass CLIConfig carries only the five fields url,
output_dir, min_width, min_height and verbose, so for every CLIConfig value
(in particular every value parse_arguments returns), run_download raises
AttributeError at its very first statement, the read of
config.use_playwright, before any page fetch: the result does not depend on
the environment, and the directory is untouched. -/
theorem run_download_cliconfig_attribute_error (env : Env) (c : CLIConfig)
    (files : Finset String) :
    run_download env (CLIConfig.obj c) files
      = (Except.error PyExc.attributeError, files) := rfl

/-- C6 counterexample: a decoder failure does not restore the stream
position.  With the buffer entered at position 3, the failing open leaves
position 0 (its format probe seeks to the start), and get_image_dimensions
returns with that position, not the entry position, refuting the claim that
the position is unchanged on the failure path as well. -/
theorem get_image_dimensions_position_counterexample :
    (get_image_dimensions pilFail ⟨[1, 2, 3, 4], 3⟩).snd.pos ≠
      (ByteStream.mk [1, 2, 3, 4] 3).pos := by
  decide

/-- C6 amended: get_image_dimensions never raises (every decoder exception is
caught and mapped to none) and never alters the buffer contents; the read
position is restored on the success path, while on the failure path it is
whatever the decoder left behind. -/
theorem get_image_dimensions_frame (pil : PILModel) (s : ByteStream) :
    (get_image_dimensions pil s).snd.data = s.data ∧
    (∀ d, (get_image_dimensions pil s).fst = some d →
      (get_image_dimensions pil s).snd.pos = s.pos) ∧
    ((get_image_dimensions pil s).fst = none ↔
      ∃ e, (pil.openImage s).fst = Except.error e) := by
  unfold get_image_dimensions
  rcases hr : pil.openImage s with ⟨r, p⟩
  cases r <;> simp [ByteStream.seek, ByteStream.tell, hr]

/-- C6 amended, witness at a concrete input: the table decoder succeeds on
the two byte buffer and the position is restored. -/
theorem get_image_dimensions_frame_witness :
    (get_image_dimensions tablePIL ⟨[7, 9], 1⟩).snd.pos =
      (ByteStream.mk [7, 9] 1).pos :=
  (get_image_dimensions_frame tablePIL ⟨[7, 9], 1⟩).2.1 ⟨7, 9⟩ (by decide)

/-- C9: the probing loop of generate_unique_filename terminates within
files.card + 1 iterations for every finite directory listing: the fueled loop
with exactly that much fuel always returns a name, and therefore the resolver
always returns a path. -/
theorem generate_unique_filename_total (files : Finset String)
    (stem suffix filename : String) (counter : Nat) :
    (probeName files stem suffix (files.card + 1) counter).isSome = true ∧
    (generate_unique_filename files filename).isSome = true :=
  ⟨probeName_isSome files stem suffix counter,
   generate_unique_filename_isSome files filename⟩

/-- C10: save_image persists the whole buffer through getvalue, so the bytes
written are independent of the current read position; in particular a
preceding dimension probe, which never changes the buffer contents, never
changes what save_image writes, even when it moved the position and did not
restore it. -/
theorem save_image_whole_buffer (w : String → List Nat → Option OSErr)
    (pil : PILModel) (s : ByteStream) (d : List Nat) (p₁ p₂ : Nat)
    (path : String) :
    save_image w ⟨d, p₁⟩ path = save_image w ⟨d, p₂⟩ path ∧
    save_image w (get_image_dimensions pil s).snd path = save_image w s path ∧
    ((get_image_dimensions pil s).snd).getvalue = s.getvalue := by
  refine ⟨rfl, ?_, ?_⟩ <;>
    · unfold get_image_dimensions
      rcases hr : pil.openImage s with ⟨r, p⟩
      cases r <;> simp [save_image, ByteStream.getvalue, ByteStream.seek]

/-- C4 counterexample: the claim splits a name ending in a dot at that dot,
but pathlib (and hence the code) treats a trailing dot as no suffix.  With
`foo.` present, the code returns `foo._1`, while the split of the claim
(stem `foo`, suffix `.`) predicts `foo_1.`. -/
theorem generate_unique_filename_split_counterexample :
    generate_unique_filename {"foo."} "foo." = some "foo._1" ∧
    claimSplit "foo." = ("foo", ".") ∧
    numberedName "foo" "." 1 = "foo_1." ∧
    ("foo._1" : String) ≠ "foo_1." := by
  refine ⟨by decide, by decide, by decide, by decide⟩

/-- C4 amended: generate_unique_filename splits the name by the pathlib rule
(suffix only when the last dot is at an interior position: not leading and
not trailing; a name with no dot, a sole leading dot, or a trailing dot keeps
the whole name as stem), returns the desired name when absent, and otherwise
the numbered name with the smallest counter n at least 1 whose name is
absent; in particular the gap-filling and the multi-dot examples of the claim
hold. -/
theorem generate_unique_filename_spec (files : Finset String) (fn : String) :
    (fn ∉ files → generate_unique_filename files fn = some fn) ∧
    (fn ∈ files → ∃ n, 1 ≤ n ∧
      generate_unique_filename files fn
        = some (numberedName (pathSplit fn).fst (pathSplit fn).snd n) ∧
      numberedName (pathSplit fn).fst (pathSplit fn).snd n ∉ files ∧
      ∀ m, 1 ≤ m → m < n →
        numberedName (pathSplit fn).fst (pathSplit fn).snd m ∈ files) ∧
    generate_unique_filename {"test.txt", "test_1.txt", "test_3.txt"} "test.txt"
      = some "test_2.txt" ∧
    generate_unique_filename {"archive.tar.gz"} "archive.tar.gz"
      = some "archive.tar_1.gz" := by
  refine ⟨?_, ?_, by decide, by decide⟩
  · intro h
    simp [generate_unique_filename, h]
  · intro h
    have hsome := probeName_isSome files (pathSplit fn).fst (pathSplit fn).snd 1
    rcases Option.isSome_iff_exists.mp hsome with ⟨r, hr⟩
    rcases probeName_spec files (pathSplit fn).fst (pathSplit fn).snd _ 1 r hr
      with ⟨k, hk, hrn, habs, hall⟩
    refine ⟨1 + k, by omega, ?_, habs, ?_⟩
    · simp only [generate_unique_filename, h, not_true_eq_false, if_false]
      rw [hr, hrn]
    · intro m hm1 hmn
      have := hall (m - 1) (by omega)
      rwa [show 1 + (m - 1) = m by omega] at this

/-- C4 amended, witness: the resolver applied with both hypotheses
discharged at concrete directory states. -/
theorem generate_unique_filename_spec_witness :
    generate_unique_filename (∅ : Finset String) "test.txt" = some "test.txt" ∧
    ∃ n, 1 ≤ n ∧
      generate_unique_filename ({"x"} : Finset String) "x"
        = some (numberedName (pathSplit "x").fst (pathSplit "x").snd n) ∧
      numberedName (pathSplit "x").fst (pathSplit "x").snd n ∉
        ({"x"} : Finset String) ∧
      ∀ m, 1 ≤ m → m < n →
        numberedName (pathSplit "x").fst (pathSplit "x").snd m ∈
          ({"x"} : Finset String) :=
  ⟨(generate_unique_filename_spec ∅ "test.txt").1 (by decide),
   (generate_unique_filename_spec {"x"} "x").2.1 (by decide)⟩

theorem rdwp_ok_shape (env : Env) (c : FullConfig) (files files' : Finset String)
    (r : DownloadResult) :
    run_download_with_playwright env c.obj files = (Except.ok r, files') →
      r.success_count + r.failed_count + r.filtered_count = r.total_count ∧
      ∃ imgs, env.capture c.url = Except.ok imgs ∧ r.total_count = imgs.length := by
  simp only [run_download_with_playwright, obj_get_url, ConfigVal.asStr]
  cases hcap : env.capture c.url with
  | error e => intro h; simp at h
  | ok imgs =>
      by_cases hlen : imgs.length = 0
      · simp only [hlen, if_pos rfl]
        intro h
        rcases Prod.mk.injEq .. ▸ h with ⟨h1, h2⟩
        cases h1
        exact ⟨rfl, imgs, rfl, hlen.symm⟩
      · simp only [hlen, if_neg hlen]
        intro h
        rcases Prod.mk.injEq .. ▸ h with ⟨h1, h2⟩
        cases h1
        refine ⟨?_, imgs, rfl, rfl⟩
        have := renderedLoop_sum env c imgs ⟨0, 0, 0⟩ files
        simpa using this

/-- C1: every completed run of run_download or run_download_with_playwright
returns a summary with success_count + failed_count + filtered_count equal to
total_count, and total_count equal to the length of the candidate list (the
extracted URL list in static mode, the captured image list in rendered mode);
each loop iteration contributes exactly one outcome, and the empty candidate
list yields the all-zero summary. -/
theorem run_download_count_invariant (env : Env) (c : FullConfig)
    (files files' : Finset String) (r : DownloadResult) :
    (run_download env c.obj files = (Except.ok r, files') →
      r.success_count + r.failed_count + r.filtered_count = r.total_count ∧
      (c.use_playwright = false →
        ∃ html, env.fetch_html c.url = Except.ok html ∧
          r.total_count = (extract_image_urls env.web html c.url).length) ∧
      (c.use_playwright = true →
        ∃ imgs, env.capture c.url = Except.ok imgs ∧
          r.total_count = imgs.length)) ∧
    (run_download_with_playwright env c.obj files = (Except.ok r, files') →
      r.success_count + r.failed_count + r.filtered_count = r.total_count ∧
      ∃ imgs, env.capture c.url = Except.ok imgs ∧ r.total_count = imgs.length) := by
  refine ⟨?_, rdwp_ok_shape env c files files' r⟩
  simp only [run_download, obj_get_upw, ConfigVal.truthy]
  cases hpw : c.use_playwright with
  | true =>
      simp only [if_pos rfl]
      intro h
      rcases rdwp_ok_shape env c files files' r h with ⟨hsum, hcap⟩
      exact ⟨hsum, fun hfalse => by simp at hfalse, fun _ => hcap⟩
  | false =>
      simp only [Bool.false_eq_true, if_false, obj_get_url, ConfigVal.asStr]
      cases hfetch : env.fetch_html c.url with
      | error e => intro h; simp at h
      | ok html =>
          by_cases hlen : (extract_image_urls env.web html c.url).length = 0
          · simp only [hlen, if_pos rfl]
            intro h
            rcases Prod.mk.injEq .. ▸ h with ⟨h1, h2⟩
            cases h1
            exact ⟨rfl, fun _ => ⟨html, rfl, hlen.symm⟩,
                   fun htrue => by simp at htrue⟩
          · simp only [hlen, if_neg hlen]
            intro h
            rcases Prod.mk.injEq .. ▸ h with ⟨h1, h2⟩
            cases h1
            refine ⟨?_, fun _ => ⟨html, rfl, rfl⟩, fun htrue => by simp at htrue⟩
            have := staticLoop_sum env c (extract_image_urls env.web html c.url)
              1 ⟨0, 0, 0⟩ files
            simpa using this

/-- C1 witness: a concrete static run over two candidates, one downloading
and passing the filter, one failing to download: the summary is 1 success, 1
failure, 0 filtered of 2 total. -/
theorem run_download_count_invariant_witness :
    (⟨1, 1, 0, 2⟩ : DownloadResult).success_count +
      (⟨1, 1, 0, 2⟩ : DownloadResult).failed_count +
      (⟨1, 1, 0, 2⟩ : DownloadResult).filtered_count =
      (⟨1, 1, 0, 2⟩ : DownloadResult).total_count ∧
    (wCfg.use_playwright = false →
      ∃ html, wEnv.fetch_html wCfg.url = Except.ok html ∧
        (⟨1, 1, 0, 2⟩ : DownloadResult).total_count =
          (extract_image_urls wEnv.web html wCfg.url).length) ∧
    (wCfg.use_playwright = true →
      ∃ imgs, wEnv.capture wCfg.url = Except.ok imgs ∧
        (⟨1, 1, 0, 2⟩ : DownloadResult).total_count = imgs.length) :=
  (run_download_count_invariant wEnv wCfg ∅ {"a.jpg"} ⟨1, 1, 0, 2⟩).1 (by decide)

/-- C3: for a well-formed configuration, run_download propagates an exception
exactly when the initial page acquisition fails (the static HTML fetch, or
the rendered capture when the playwright flag is set), and that failure
leaves the directory untouched, so it happens before any candidate is
processed; every per-candidate failure is converted to a Failed outcome
inside the loop, which by construction never raises, so an ok summary is
returned whenever the acquisition succeeds. -/
theorem run_download_error_iff (env : Env) (c : FullConfig)
    (files : Finset String) (e : PyExc) :
    ((run_download env c.obj files).fst = Except.error e ↔
      (if c.use_playwright then env.capture c.url = Except.error e
       else env.fetch_html c.url = Except.error e)) ∧
    ((run_download env c.obj files).fst = Except.error e →
      (run_download env c.obj files).snd = files) := by
  simp only [run_download, run_download_with_playwright, obj_get_upw,
    obj_get_url, ConfigVal.truthy, ConfigVal.asStr]
  cases hpw : c.use_playwright with
  | true =>
      simp only [if_pos rfl]
      cases hcap : env.capture c.url with
      | error e' =>
          constructor
          · simp
          · intro h; rfl
      | ok imgs =>
          by_cases hlen : imgs.length = 0
          · simp [hlen]
          · simp [hlen]
  | false =>
      simp only [Bool.false_eq_true, if_false]
      cases hfetch : env.fetch_html c.url with
      | error e' =>
          constructor
          · simp
          · intro h; rfl
      | ok html =>
          by_cases hlen : (extract_image_urls env.web html c.url).length = 0
          · simp [hlen]
          · simp [hlen]

/-- C3 witness: with an environment whose page fetch fails, the static run
propagates exactly that failure and leaves the directory untouched. -/
theorem run_download_error_iff_witness :
    (run_download failEnv wCfg.obj ∅).snd = (∅ : Finset String) :=
  (run_download_error_iff failEnv wCfg ∅ PyExc.fetchError).2 (by decide)

/-- C7 counterexample: a rendered candidate with pre-supplied dimensions 500
by 500 (resolved from the HTML attributes) whose raster bytes decode to 10 by
10 is Filtered under a minimum width of 100, although the pre-supplied
dimensions pass the bound: the orchestrator re-decodes the captured bytes for
the filter decision instead of using the candidate's dimensions. -/
theorem rendered_filter_counterexample :
    run_download cexRenderedEnv cexRenderedCfg.obj ∅
      = (Except.ok ⟨0, 0, 1, 1⟩, ∅) ∧
    passes_spec (some ⟨500, 500⟩) (some 100) none none none = true := by
  exact ⟨by decide, by decide⟩

/-- C7 amended: in rendered mode with at least one bound set, the per
candidate filter decision is taken by re-decoding the captured raster bytes
(a fresh stream over image_data fed to check_image_size), not from the
pre-supplied dimensions, which only reach the log output; the pre-supplied
dimensions themselves are resolved by the capture step, which does prefer the
HTML-declared width/height attributes over the screenshot pixel size when
both are present and numeric. -/
theorem rendered_filter_uses_raster (env : Env) (c : FullConfig)
    (files : Finset String) (img : RenderedImage) (pil : PILModel)
    (data : List Nat) (w h : String) (iw ih : Int) :
    ((c.min_width.isSome || c.min_height.isSome ||
      c.max_width.isSome || c.max_height.isSome) = true →
      ((processRendered env c.obj files img).fst.2.2 = 1 ↔
        passes_spec
          (get_image_dimensions env.pil (ByteStream.ofData img.image_data)).fst
          c.min_width c.min_height c.max_width c.max_height = false)) ∧
    (w ≠ "" → h ≠ "" → pyToInt w = some iw → pyToInt h = some ih →
      resolveRenderedDims pil data (some w) (some h) = Except.ok ⟨iw, ih⟩) := by
  constructor
  · intro hb
    simp only [processRendered, readAnyBound_obj, readBounds_obj, hb, if_pos rfl]
    have hspec := check_size_spec_aux env.pil (ByteStream.ofData img.image_data)
      c.min_width c.min_height c.max_width c.max_height
    rcases hcs : check_image_size env.pil (ByteStream.ofData img.image_data)
        c.min_width c.min_height c.max_width c.max_height with ⟨b, s⟩
    rw [hcs] at hspec
    cases b
    · simp [← hspec]
    · simp only [← hspec]
      have hzero : (renderedSave env c.obj files img).fst.2.2 = 0 := by
        simp only [renderedSave, obj_get_output_dir]
        cases save_image env.write (ByteStream.ofData img.image_data)
            ((generate_unique_filename files img.filename).getD img.filename) with
        | error e => rfl
        | ok u => rfl
      simp [hzero]
  · intro hw hh hiw hih
    simp only [resolveRenderedDims, if_pos (And.intro hw hh), hiw, hih]

/-- C7 amended, witness: the filtered counterexample candidate instantiates
the dichotomy, and the attribute pair 500 by 600 overrides the raster. -/
theorem rendered_filter_uses_raster_witness :
    ((processRendered cexRenderedEnv cexRenderedCfg.obj ∅
        ⟨[10, 10, 7], "http://x/p.jpg", ⟨500, 500⟩, "p.png"⟩).fst.2.2 = 1 ↔
      passes_spec
        (get_image_dimensions cexRenderedEnv.pil
          (ByteStream.ofData
            (RenderedImage.mk [10, 10, 7] "http://x/p.jpg" ⟨500, 500⟩
              "p.png").image_data)).fst
        cexRenderedCfg.min_width cexRenderedCfg.min_height
        cexRenderedCfg.max_width cexRenderedCfg.max_height = false) ∧
    resolveRenderedDims tablePIL [1, 2] (some "500") (some "600")
      = Except.ok ⟨500, 600⟩ :=
  ⟨(rendered_filter_uses_raster cexRenderedEnv cexRenderedCfg ∅
      ⟨[10, 10, 7], "http://x/p.jpg", ⟨500, 500⟩, "p.png"⟩ tablePIL [1, 2]
      "500" "600" 500 600).1 (by decide),
   (rendered_filter_uses_raster cexRenderedEnv cexRenderedCfg ∅
      ⟨[10, 10, 7], "http://x/p.jpg", ⟨500, 500⟩, "p.png"⟩ tablePIL [1, 2]
      "500" "600" 500 600).2 (by decide) (by decide) (by decide) (by decide)⟩

theorem pyStrip_empty : pyStrip "" = "" := rfl

theorem extractStep_mem (env : WebEnv) (b : String) (acc : List String)
    (src? : Option String) (x : String) :
    x ∈ extractStep env b acc src? ↔
      x ∈ acc ∨ ∃ src, src? = some src ∧ pyStrip src ≠ "" ∧
        env.scheme src ∉ INVALID_SCHEMES ∧ x = env.urljoin b src ∧
        (lowerString (env.pathOf (env.urljoin b src))).data.contains '.' = true ∧
        extensionOf (lowerString (env.pathOf (env.urljoin b src)))
          ∈ SUPPORTED_EXTENSIONS := by
  cases src? with
  | none => simp [extractStep]
  | some src =>
      simp only [extractStep, Option.some.injEq]
      split_ifs with h1 h2 h3 h4 h5
      · have hstrip : pyStrip src = "" := by
          rcases (by simpa using h1 : src = "" ∨ pyStrip src = "") with h | h
          · rw [h]; rfl
          · exact h
        constructor
        · exact fun h => Or.inl h
        · rintro (h | ⟨src', rfl, hstr, _⟩)
          · exact h
          · exact absurd hstrip hstr
      · constructor
        · exact fun h => Or.inl h
        · rintro (h | ⟨src', rfl, _, hsch, _⟩)
          · exact h
          · exact absurd h2 hsch
      · constructor
        · exact fun h => Or.inl h
        · rintro (h | ⟨src', rfl, _, _, rfl, _, _⟩)
          · exact h
          · exact h5
      · have hstr : pyStrip src ≠ "" := by
          intro h
          exact h1 (by simp [h])
        rw [List.mem_append, List.mem_singleton]
        constructor
        · rintro (h | rfl)
          · exact Or.inl h
          · exact Or.inr ⟨src, rfl, hstr, h2, rfl, h3, h4⟩
        · rintro (h | ⟨src', rfl, _, _, rfl, _, _⟩)
          · exact Or.inl h
          · exact Or.inr rfl
      · constructor
        · exact fun h => Or.inl h
        · rintro (h | ⟨src', rfl, _, _, rfl, _, hext⟩)
          · exact h
          · exact absurd hext h4
      · constructor
        · exact fun h => Or.inl h
        · rintro (h | ⟨src', rfl, _, _, rfl, hdot, _⟩)
          · exact h
          · exact absurd hdot h3

theorem foldl_extractStep_mem (env : WebEnv) (b : String) :
    ∀ (l : List (Option String)) (acc : List String) (x : String),
      x ∈ l.foldl (extractStep env b) acc ↔
        x ∈ acc ∨ ∃ src, some src ∈ l ∧ pyStrip src ≠ "" ∧
          env.scheme src ∉ INVALID_SCHEMES ∧ x = env.urljoin b src ∧
          (lowerString (env.pathOf (env.urljoin b src))).data.contains '.' = true ∧
          extensionOf (lowerString (env.pathOf (env.urljoin b src)))
            ∈ SUPPORTED_EXTENSIONS := by
  intro l
  induction l with
  | nil => simp
  | cons hd tl ih =>
      intro acc x
      rw [List.foldl_cons, ih, extractStep_mem]
      constructor
      · rintro ((h | ⟨src, hs, hc⟩) | ⟨src, hs, hc⟩)
        · exact Or.inl h
        · exact Or.inr ⟨src, by simp [hs], hc⟩
        · exact Or.inr ⟨src, List.mem_cons_of_mem _ hs, hc⟩
      · rintro (h | ⟨src, hs, hc⟩)
        · exact Or.inl (Or.inl h)
        · rcases List.mem_cons.mp hs with hs | hs
          · exact Or.inl (Or.inr ⟨src, hs.symm, hc⟩)
          · exact Or.inr ⟨src, hs, hc⟩

theorem extractStep_nodup (env : WebEnv) (b : String) (acc : List String)
    (src? : Option String) (h : acc.Nodup) : (extractStep env b acc src?).Nodup := by
  cases src? with
  | none => exact h
  | some src =>
      simp only [extractStep]
      split_ifs with h1 h2 h3 h4 h5
      any_goals exact h
      simp [List.nodup_append, h, h5]

theorem foldl_extractStep_nodup (env : WebEnv) (b : String) :
    ∀ (l : List (Option String)) (acc : List String), acc.Nodup →
      (l.foldl (extractStep env b) acc).Nodup := by
  intro l
  induction l with
  | nil => exact fun acc h => h
  | cons hd tl ih =>
      intro acc h
      exact ih _ (extractStep_nodup env b acc hd h)

/-- C8 counterexample: an image element whose absolute URL is
`http://x/a.tiff` has a non-empty src and a fetchable scheme, so the claim
keeps it, but extract_image_urls drops it because `.tiff` is not in the
supported extension set: the code filters by extension, the claim says no
other candidate is excluded. -/
theorem extract_extension_filter_counterexample :
    extract_image_urls cexTiffWeb "<html>" "http://x" = [] ∧
    extract_image_urls_spec cexTiffWeb "<html>" "http://x" = ["http://x/a.tiff"] :=
  ⟨by decide, by decide⟩

/-- C8 amended: extract_image_urls returns, without duplicates, exactly the
absolute forms (urljoin against the page URL) of the src attributes that are
non-empty after stripping whitespace, whose raw scheme is not data,
javascript or mailto, and whose absolute lowered path contains a dot with the
final extension in the supported set (.jpg .jpeg .png .gif .webp .svg .bmp);
an empty document yields no candidates.  Deduplication is by exact string
equality of the absolute URL, so URLs differing only by trailing slash or
host case stay distinct. -/
theorem extract_image_urls_characterization (env : WebEnv)
    (html base_url : String) :
    (extract_image_urls env html base_url).Nodup ∧
    ∀ x, x ∈ extract_image_urls env html base_url ↔
      (html ≠ "" ∧ ∃ src, some src ∈ env.soupImgs html ∧ pyStrip src ≠ "" ∧
        env.scheme src ∉ INVALID_SCHEMES ∧ x = env.urljoin base_url src ∧
        (lowerString (env.pathOf (env.urljoin base_url src))).data.contains '.'
          = true ∧
        extensionOf (lowerString (env.pathOf (env.urljoin base_url src)))
          ∈ SUPPORTED_EXTENSIONS) := by
  unfold extract_image_urls
  by_cases hh : html = ""
  · simp [hh]
  · simp only [if_neg hh]
    refine ⟨foldl_extractStep_nodup env base_url _ [] (by simp), ?_⟩
    intro x
    rw [foldl_extractStep_mem]
    simp [hh]

/-- C8 amended, witness: the characterization instantiated at the concrete
witness page, whose first image URL is kept. -/
theorem extract_image_urls_characterization_witness :
    "http://x/a.jpg" ∈ extract_image_urls wWeb "<html>" "http://x" :=
  ((extract_image_urls_characterization wWeb "<html>" "http://x").2
      "http://x/a.jpg").mpr
    ⟨by decide, "http://x/a.jpg", by decide, by decide, by decide, by decide,
     by decide, by decide⟩

end DownloadImagesOnPage
